import Mathlib

/-!
Verification of the Smali front-end parser (rgoogle/smali): a shallow
embedding of `base.py` and `reader.py` together with theorems checking the
natural-language specification against it.

Conventions used throughout:

* Python strings are Lean `String`s; the helpers `pyLstripWs`, `pyRstripChars`,
  `pySlice`, ... reproduce the exact Python `str` methods used by the source
  (`lstrip`, `rstrip(chars)`, slicing with negative indices, `find` returning
  `-1`, single-separator `split`).
* `re.match` is anchored at the start but is a *prefix* match; patterns are
  translated matcher by matcher, keeping the prefix semantics (this matters:
  the bare int pattern prefix-matches `3.14` and `false`).
* Python exceptions become the `PErr` error type; `ValueError` raised by a
  failed `int(...)` / `float(...)` conversion is kept distinct from the
  "no matching primitive type" `ValueError` raised by `smali_value` itself so
  that theorems can tell the two origins apart (both are `ValueError` at the
  Python level).
-/

/-! ## Python string primitives -/

def wsDropLeft (l : List Char) : List Char := l.dropWhile Char.isWhitespace

def wsDropRight (l : List Char) : List Char := (l.reverse.dropWhile Char.isWhitespace).reverse

/-- Python `str.lstrip()` (no argument: whitespace). -/
def pyLstripWs (s : String) : String := String.mk (wsDropLeft s.data)

/-- Python `str.rstrip()` (no argument: whitespace). -/
def pyRstripWs (s : String) : String := String.mk (wsDropRight s.data)

/-- Python `str.strip()`. -/
def pyStripWs (s : String) : String := pyLstripWs (pyRstripWs s)

/-- Python `str.lstrip(chars)`: drop leading characters that appear in `cs`. -/
def pyLstripChars (cs : List Char) (s : String) : String :=
  String.mk (s.data.dropWhile (fun c => cs.contains c))

/-- Python `str.rstrip(chars)`. -/
def pyRstripChars (cs : List Char) (s : String) : String :=
  String.mk ((s.data.reverse.dropWhile (fun c => cs.contains c)).reverse)

/-- Python `str.strip(chars)`. -/
def pyStripChars (cs : List Char) (s : String) : String :=
  pyLstripChars cs (pyRstripChars cs s)

/-- Python `str.split(sep)` for a one-character separator (keeps empty parts,
`"".split(c) == ['']`). -/
def splitOnCharAux (c : Char) : List Char → List Char → List (List Char)
  | [], cur => [cur.reverse]
  | x :: xs, cur =>
      if x = c then cur.reverse :: splitOnCharAux c xs []
      else splitOnCharAux c xs (x :: cur)

def splitOnChar (c : Char) (l : List Char) : List (List Char) := splitOnCharAux c l []

/-- Python `str.split("->")` (the only multi-character separator the source uses). -/
def splitArrowAux : List Char → List Char → List (List Char)
  | '-' :: '>' :: xs, cur => cur.reverse :: splitArrowAux xs []
  | x :: xs, cur => splitArrowAux xs (x :: cur)
  | [], cur => [cur.reverse]

def splitArrow (l : List Char) : List (List Char) := splitArrowAux l []

/-- First index of `c` in `l`, if any. -/
def charIdx (l : List Char) (c : Char) : Option Nat :=
  match l with
  | [] => none
  | x :: xs => if x = c then some 0 else (charIdx xs c).map (· + 1)

/-- Python `str.find(c)`: first index or `-1`. -/
def pyFindCh (s : String) (c : Char) : Int :=
  match charIdx s.data c with
  | some i => (i : Int)
  | none => -1

/-- Python `str.rfind(c)`: last index or `-1`. -/
def pyRFindCh (s : String) (c : Char) : Int :=
  match charIdx s.data.reverse c with
  | some k => (s.data.length : Int) - 1 - k
  | none => -1

/-- Normalise one Python slice bound against a length. -/
def pyNorm (len : Nat) (x : Int) : Nat :=
  if x < 0 then (x + len).toNat else min x.toNat len

/-- Python `s[i:j]` with full negative-index / clamping semantics. -/
def pySlice (s : String) (i j : Int) : String :=
  let l := s.data
  String.mk ((l.take (pyNorm l.length j)).drop (pyNorm l.length i))

/-- Python `s[i:]`. -/
def pySliceFrom (s : String) (i : Int) : String := pySlice s i (s.data.length : Int)

/-- Python `s.replace(a, b)` for one-character `a`, `b`. -/
def replCh (a b : Char) (s : String) : String :=
  String.mk (s.data.map (fun c => if c = a then b else c))

/-- Python `s.replace(a, '')` for a one-character `a`. -/
def delCh (a : Char) (s : String) : String :=
  String.mk (s.data.filter (fun c => c ≠ a))

/-- Python `str.startswith` (list-based so that it kernel-reduces). -/
def strStartsWith (s pre : String) : Bool := pre.data.isPrefixOf s.data

/-- Python substring containment (`pat in s`). -/
def listInfix (pat : List Char) : List Char → Bool
  | [] => pat.isEmpty
  | c :: rest => pat.isPrefixOf (c :: rest) || listInfix pat rest

/-- Python `str.lower()` (ASCII, which is all the source uses it on). -/
def pyLower (s : String) : String := String.mk (s.data.map Char.toLower)

def digitsVal (l : List Char) : Nat :=
  l.foldl (fun a c => a * 10 + (c.toNat - 48)) 0

def isHexDigitCh (c : Char) : Bool :=
  c.isDigit || ('a' ≤ c && c ≤ 'f') || ('A' ≤ c && c ≤ 'F')

def hexDigitVal (c : Char) : Nat :=
  if c.isDigit then c.toNat - 48
  else if 'a' ≤ c && c ≤ 'f' then c.toNat - 87
  else c.toNat - 55

def hexVal (l : List Char) : Nat :=
  l.foldl (fun a c => a * 16 + hexDigitVal c) 0

def allDigits (l : List Char) : Bool := l.all Char.isDigit

/-- Python `int(s)` (base 10): strips whitespace, optional sign, then decimal
digits; `none` models the `ValueError` on anything else.  (Underscore digit
grouping is not modelled; no input in this development contains one.) -/
def pyInt (s : String) : Option Int :=
  match (pyStripWs s).data with
  | '-' :: r => if r ≠ [] ∧ allDigits r then some (-(digitsVal r : Int)) else none
  | '+' :: r => if r ≠ [] ∧ allDigits r then some ((digitsVal r : Int)) else none
  | r => if r ≠ [] ∧ allDigits r then some ((digitsVal r : Int)) else none

/-- Python `int(s, base=16)`: optional sign, optional `0x`/`0X` prefix,
then hex digits. -/
def pyIntB16Core (l : List Char) : Option Nat :=
  match l with
  | '0' :: 'x' :: r => if r ≠ [] ∧ r.all isHexDigitCh then some (hexVal r) else none
  | '0' :: 'X' :: r => if r ≠ [] ∧ r.all isHexDigitCh then some (hexVal r) else none
  | r => if r ≠ [] ∧ r.all isHexDigitCh then some (hexVal r) else none

def pyIntB16 (s : String) : Option Int :=
  match (pyStripWs s).data with
  | '-' :: r => (pyIntB16Core r).map (fun n => -(n : Int))
  | '+' :: r => (pyIntB16Core r).map (fun n => (n : Int))
  | r => (pyIntB16Core r).map (fun n => (n : Int))

/-! ## Access modifiers (`AccessType` in `base.py`)

The flag names below are `name.lower().replace('_', '-')` of the Python enum
members, with the values from the source. -/

def accessTypeList : List (String × Nat) :=
  [("public", 0x1), ("private", 0x2), ("protected", 0x4), ("static", 0x8),
   ("final", 0x10), ("synchronized", 0x20), ("volatile", 0x40), ("bridge", 0x80),
   ("transient", 0x100), ("varargs", 0x200), ("native", 0x400), ("interface", 0x800),
   ("abstract", 0x1000), ("strictfp", 0x2000), ("synthetic", 0x4000),
   ("annotation", 0x8000), ("enum", 0x10000), ("constructor", 0x20000),
   ("declared-synchronized", 0x40000), ("system", 0x80000), ("runtime", 0x100000),
   ("build", 0x200000)]

/-- `AccessType.get_flags`: OR the values of all members whose keyword matches the
lower-cased element; empty entries are skipped, unknown entries contribute nothing. -/
def getFlags (values : List String) : Nat :=
  values.foldl
    (fun result element =>
      if element = ("") then result
      else
        accessTypeList.foldl
          (fun r p => if p.1 = pyLower element then r ||| p.2 else r) result)
    0

/-- `AccessType.find`: is the keyword (as given, not lower-cased) a known modifier? -/
def accessFind (value : String) : Bool :=
  accessTypeList.any (fun p => p.1 = value)

/-- The right operand of `AccessType.__contains__`: either a plain Python `int`
or another `AccessType` flag-set value (carrying its integer value). -/
inductive COperand
  | intval (n : Nat)
  | flagval (n : Nat)
deriving DecidableEq, Repr

/-- `AccessType.__contains__` from `base.py`: for a plain int, any-overlap
(`self.value & other != 0`); for another flag-set value it delegates to
CPython's `enum.Flag.__contains__`, which is the bit-subset test
`other._value_ & self._value_ == other._value_`.  (The `TypeError` branch for
other operand types is outside `COperand` and not modelled.) -/
def accessContains (self : Nat) : COperand → Bool
  | .flagval other => other &&& self == other
  | .intval other => self &&& other != 0

def acPublic : Nat := 0x1
def acFinal : Nat := 0x10
def acPrivate : Nat := 0x2

/-! ## Literal classifier (`SmaliType` patterns and `smali_value`) -/

/-- `[\-\+]?` : consume one optional sign. -/
def afterSign : List Char → List Char
  | c :: rest => if c = '-' ∨ c = '+' then rest else c :: rest
  | [] => []

/-- `[hex]+X$`: a nonempty hex-digit run followed by exactly the suffix
character.  The suffixes used (`s`, `l`, `t`) are not hex digits, so the
greedy run is the only candidate split. -/
def hexRunThenSuffix (suf : Char) (l : List Char) : Bool :=
  let p := l.span isHexDigitCh
  decide (p.1 ≠ []) && decide (p.2 = [suf])

/-- `(0x)?[hex]+X$` with the regex alternation on the optional `0x`. -/
def matchSuffixed (suf : Char) (s : String) : Bool :=
  let l := afterSign s.data
  (match l with
   | '0' :: 'x' :: rest => hexRunThenSuffix suf rest
   | _ => false) ||
  hexRunThenSuffix suf l

/-- `RE_SHORT_VALUE = [\-\+]?(0x)?[hex]+s$` -/
def matchShortRe (s : String) : Bool := matchSuffixed 's' s

/-- `RE_LONG_VALUE = [\-\+]?(0x)?[hex]+l$` -/
def matchLongRe (s : String) : Bool := matchSuffixed 'l' s

/-- `RE_BYTE_VALUE = [\-\+]?(0x)?[hex]+t$` -/
def matchByteRe (s : String) : Bool := matchSuffixed 't' s

def headIsHex (l : List Char) : Bool :=
  match l with
  | c :: _ => isHexDigitCh c
  | [] => false

/-- `RE_INT_VALUE = [\-\+]?(0x)?[hex]+` under `re.match`: a *prefix* match, so
it succeeds as soon as one hex digit follows the optional sign/prefix
(e.g. it matches `3.14` and `false` on their leading `3` / `fa`). -/
def matchIntRe (s : String) : Bool :=
  let l := afterSign s.data
  (match l with
   | '0' :: 'x' :: rest => headIsHex rest
   | _ => false) ||
  headIsHex l

/-- `RE_BOOL_VALUE = true|false` under `re.match` (prefix). -/
def matchBoolRe (s : String) : Bool :=
  strStartsWith s ("true") || strStartsWith s ("false")

/-- `\d+\.\d+` followed by exactly `tail` (used with `tail = ['f']` for the
float pattern's `f$`). -/
def digitsDotDigitsThen (tail : List Char) (l : List Char) : Bool :=
  let p := l.span Char.isDigit
  decide (p.1 ≠ []) &&
  (match p.2 with
   | '.' :: r2 =>
       let q := r2.span Char.isDigit
       decide (q.1 ≠ []) && decide (q.2 = tail)
   | _ => false)

/-- `\d+\.\d+` as a prefix (rest arbitrary). -/
def digitsDotDigitsPrefix (l : List Char) : Bool :=
  let p := l.span Char.isDigit
  decide (p.1 ≠ []) &&
  (match p.2 with
   | '.' :: r2 => r2.head?.elim false Char.isDigit
   | _ => false)

/-- `RE_FLOAT_VALUE = [\-\+]?(0x)?\d+\.\d+f$` -/
def matchFloatRe (s : String) : Bool :=
  let l := afterSign s.data
  (match l with
   | '0' :: 'x' :: rest => digitsDotDigitsThen ['f'] rest
   | _ => false) ||
  digitsDotDigitsThen ['f'] l

/-- `RE_DOUBLE_VALUE = [\-\+]?(0x)?\d+\.\d+` under `re.match` (prefix). -/
def matchDoubleRe (s : String) : Bool :=
  let l := afterSign s.data
  (match l with
   | '0' :: 'x' :: rest => digitsDotDigitsPrefix rest
   | _ => false) ||
  digitsDotDigitsPrefix l

def isWordCh (c : Char) : Bool := c.isAlphanum || c = '_'

/-- `RE_CHAR_VALUE = ^'\w*'$` -/
def matchCharRe (s : String) : Bool :=
  let q : Char := Char.ofNat 39
  match s.data with
  | c :: rest =>
      c = q && decide (rest ≠ []) && rest.dropLast.all isWordCh && rest.getLast? == some q
  | [] => false

/-- `RE_STRING_VALUE = ^"\w*"$` -/
def matchStringRe (s : String) : Bool :=
  match s.data with
  | '"' :: rest =>
      decide (rest ≠ []) && rest.dropLast.all isWordCh && rest.getLast? == some '"'
  | [] => false
  | _ => false

/-- `RE_TYPE_VALUE = \[*((L\S*;$)|([ZCBSIFVJD])$)`: any number of `[`, then
either an `L...;` object descriptor with no whitespace, or a single primitive
letter, reaching the end of the string. -/
def matchTypeRe (s : String) : Bool :=
  let t := s.data.dropWhile (fun c => c = '[')
  match t with
  | 'L' :: rest =>
      decide (rest ≠ []) && rest.getLast? == some ';' &&
      rest.all (fun c => ¬ c.isWhitespace)
  | [c] => ['Z', 'C', 'B', 'S', 'I', 'F', 'V', 'J', 'D'].contains c
  | _ => false

/-- `RE_HEX_VALUE = 0x[hex]+` under `re.match` (prefix). -/
def matchHexRe (s : String) : Bool :=
  match s.data with
  | '0' :: 'x' :: rest => headIsHex rest
  | _ => false

/-- Decoded native value held by a `SmaliType` wrapper. -/
inductive PyVal
  | int (n : Int)
  | bool (b : Bool)
  | str (s : String)
  | float (q : Rat)
  | typeRef (sig : String)
deriving DecidableEq, Repr

/-- Python truthiness of the decoded value (`if not sm_value.actual_value`). -/
def pyTruthy : PyVal → Bool
  | .int n => n != 0
  | .bool b => b
  | .str s => s ≠ ("")
  | .float q => q ≠ 0
  | .typeRef _ => true

/-- Python `float(s)` on the shapes that can reach it from the classifier's
pattern table: optional sign, digits, optionally `.` and digits.  Everything
else (exponents, `inf`, a leading dot, stray suffix characters such as the
`f` required by the float pattern, a `0x` prefix) yields `none`, i.e.
`ValueError` — exactly as CPython does on those inputs. -/
def pyFloat (s : String) : Option PyVal :=
  let t := (pyStripWs s).data
  let signed : Bool × List Char :=
    match t with
    | '-' :: r => (true, r)
    | '+' :: r => (false, r)
    | r => (false, r)
  let p := signed.2.span Char.isDigit
  if p.1 = [] then none
  else
    match p.2 with
    | [] =>
        let q : Rat := (digitsVal p.1 : Rat)
        some (.float (if signed.1 then -q else q))
    | '.' :: r2 =>
        let p2 := r2.span Char.isDigit
        if p2.2 = [] then
          let q : Rat := (digitsVal p.1 : Rat) + (digitsVal p2.1 : Rat) / ((10 : Rat) ^ p2.1.length)
          some (.float (if signed.1 then -q else q))
        else none
    | _ => none

/-- Errors out of `smali_value`.  Both constructors are Python `ValueError`s;
`unclassifiable` is the one `smali_value` raises itself ("Could not find any
matching primitive type for ..."), `convError` is the one a wrapper
(`int(...)` / `float(...)`) raises while decoding a matched lexeme. -/
inductive SmErr
  | unclassifiable (value : String)
  | convError (value : String)
deriving DecidableEq, Repr

/-- `SmaliType.TYPE_MAP`: the ordered matcher/wrapper table.  Wrappers return
`none` where the Python callable would raise `ValueError`. -/
def TYPE_MAP : List ((String → Bool) × (String → Option PyVal)) :=
  [(matchShortRe, fun v => (pyInt v).map PyVal.int),
   (matchLongRe, fun v => (pyInt v).map PyVal.int),
   (matchByteRe, fun v => (pyInt v).map PyVal.int),
   (matchIntRe, fun v => (pyInt v).map PyVal.int),
   (matchBoolRe, fun v => some (.bool (v = ("true")))),
   (matchFloatRe, pyFloat),
   (matchDoubleRe, pyFloat),
   (matchCharRe, fun v => some (.str (pySlice v 1 (-1)))),
   (matchStringRe, fun v => some (.str (pySlice v 1 (-1)))),
   (matchTypeRe, fun v => some (.typeRef v))]

/-- The matcher loop of `smali_value`: first matching entry wins; for the four
integer-like entries (index ≤ 3) the hex-prefix re-test decides base 10 vs 16.
`none`: no pattern matched; `some none`: a wrapper raised; `some (some v)`:
decoded. -/
def smTryMap : List ((String → Bool) × (String → Option PyVal)) → Nat → String →
    Option (Option PyVal)
  | [], _, _ => none
  | (m, w) :: rest, i, v =>
      if m v then
        some (if i ≤ 3 then
                (if matchHexRe v then (pyIntB16 v).map PyVal.int else w v)
              else w v)
      else smTryMap rest (i + 1) v

/-- `smali_value` from `base.py`. -/
def smaliValue (value : String) : Except SmErr PyVal :=
  match smTryMap TYPE_MAP 0 value with
  | none => .error (.unclassifiable value)
  | some none => .error (.convError value)
  | some (some v) => if pyTruthy v then .ok v else .error (.unclassifiable value)

/-! ## Signature decomposer (`Type` in `base.py`, named `STy` here because
`Type` is reserved in Lean) -/

namespace STy

/-- `Type.descriptor`. -/
def descriptor (sig : String) : String :=
  if matchTypeRe sig then sig
  else if strStartsWith sig ("[") then
    let idx : Int := pyRFindCh sig '['
    pySlice sig 0 idx ++ "L" ++ replCh '.' '/' (pySliceFrom sig (idx + 1)) ++ ";"
  else "L" ++ replCh '.' '/' sig ++ ";"

/-- `Type.type_name`. -/
def typeName (sig : String) : String :=
  if ¬ matchTypeRe sig then sig
  else replCh '.' '/' (pySlice (pyLstripChars ['['] sig) 1 (-1))

/-- `Type.class_name`. -/
def className (sig : String) : String :=
  delCh '[' (replCh '/' '.' (typeName sig))

/-- `Type.get_method_name`; `.error` models the `TypeError`. -/
def getMethodName (sig : String) : Except String String :=
  match charIdx sig.data '(' with
  | none => .error ("Invalid method signature: could not find name")
  | some idx =>
      let name : String := pySlice sig 0 (idx : Int)
      if name = ("<init>") ∨ name = ("<clinit>") then .ok name
      else .ok (pyLstripChars ['<'] (pyRstripChars ['>'] name))

/-- The character walk of `Type.get_method_params`, translated branch for
branch (`isType`/`current` are the loop's `is_type`/`current`; `acc` collects
`param_list` in reverse). -/
def paramsGo : List Char → Bool → List Char → List (List Char) → List (List Char)
  | [], _, _, acc => acc.reverse
  | c :: rest, isType, current, acc =>
      if c = 'L' then paramsGo rest true (current ++ ['L']) acc
      else if c = ';' then paramsGo rest false [] ((current ++ [';']) :: acc)
      else if c = '[' then paramsGo rest isType (current ++ ['[']) acc
      else if isType then paramsGo rest isType (current ++ [c]) acc
      else paramsGo rest isType current ([c] :: acc)

/-- `Type.get_method_params`. -/
def getMethodParams (sig : String) : Except String (List String) :=
  let start := pyFindCh sig '('
  let stop := pyFindCh sig ')'
  if start = -1 ∨ stop = -1 then .error ("Invalid method signature")
  else
    let params := pySlice sig (start + 1) stop
    if params = ("") then .ok []
    else .ok ((paramsGo params.data false [] []).map String.mk)

/-- `Type.get_method_return_type`. -/
def getMethodReturnType (sig : String) : Except String String :=
  let stop := pyFindCh sig ')'
  if stop = -1 then .error ("Invalid method signature")
  else .ok (pySliceFrom sig (stop + 1))

end STy

/-! ## The parsing engine (`reader.py`)

Python exceptions are modelled by `PErr`.  The engine runs in an
error+state monad in which mutations made before a raise survive the raise
(CPython semantics), hence `EStateM`.  The two unbounded-iteration sites
(the drive loop and the multi-line block collectors) take explicit fuel;
`outOfFuel` marks an execution that used up its fuel, which terminating runs
never do for a large enough budget. -/

inductive PErr
  | eofError
  | stopIteration
  | syntaxError (msg : String)
  | valueError (msg : String)
  | typeError (msg : String)
  | indexError
  | attributeError (name : String)
  | outOfFuel
deriving DecidableEq, Repr

/-! ### The line cursor (`Line` in `base.py`) -/

structure LineSt where
  raw : String
  cleaned : String
  eolComment : Option String
  toks : List String
deriving DecidableEq, Repr

/-- Tokenisation: `cleaned.split(' ')`, and the iterator over it.  `toks` is
the not-yet-consumed suffix; `peek` is its head, an empty `toks` is the
exhausted (`_default`) state.  Note `"".split(' ') == ['']`, so an empty
cleaned line still has one (empty-string) token. -/
def mkToks (cleaned : String) : List String :=
  (splitOnChar ' ' cleaned.data).map String.mk

/-- Start index of the `\s*#.*` EOL-comment match inside `cleaned`
(`re.search`: the first `#`, extended left over the whitespace run that
precedes it). -/
def findCommentStart (l : List Char) : Option Nat :=
  match charIdx l '#' with
  | none => none
  | some i => some (i - ((l.take i).reverse.takeWhile Char.isWhitespace).length)

/-- `Line.reset`: on a falsy argument only the cursor is exhausted (the other
fields keep their stale values, as in the source); otherwise the line is
re-tokenised and a trailing comment is split off.  The `.*` of the comment
pattern reaches the end of the line (readline lines contain no interior
newline), so everything from the match start is removed. -/
def lineReset (old : LineSt) (line : String) : LineSt :=
  if line = ("") then { old with toks := [] }
  else
    let raw := pyRstripWs line
    let cleaned0 := pyLstripWs raw
    match findCommentStart cleaned0.data with
    | none =>
        { raw := raw, cleaned := cleaned0, eolComment := none, toks := mkToks cleaned0 }
    | some start =>
        let com := pyLstripChars ['#', ' '] (String.mk (cleaned0.data.drop start))
        let cleaned : String := String.mk (cleaned0.data.take start)
        { raw := raw, cleaned := cleaned, eolComment := some com, toks := mkToks cleaned }

/-- `Line(None)`: the class-level initial line (no fields set; modelled as
blanks with an exhausted cursor — the engine always resets before reading). -/
def initLine : LineSt := { raw := "", cleaned := "", eolComment := none, toks := [] }

/-! ### Visitors and events

`visitor.py` is not under `src/`.  Modelled from the spec: visitors form one
hierarchy with per-scope classes (class / field / method / annotation, with
sub-annotations reusing the annotation contract); `EMPTY_FIELDV`,
`EMPTY_METHV`, `EMPTY_ANNOV` are inert no-op members of the respective
classes whose `visit_*` methods discard events and return `None`; a consumer
scope handle accepts the `visit_*` calls of its scope and returns a fresh
scope handle from the scope-opening ones.  Events delivered to a consumer
are recorded in the engine state's `trace`, in call order, tagged with the
receiving scope; calls on the inert members record nothing; method calls on a
`None` stack entry raise `AttributeError`. -/

inductive ScopeKind
  | cls
  | fld
  | mth
  | ann
deriving DecidableEq, Repr

inductive Scope
  | consumer (k : ScopeKind) (id : Nat)
  | emptyFieldV
  | emptyMethodV
  | emptyAnnV
  | null
deriving DecidableEq, Repr

/-- Python truthiness of a stack entry (`None` is the only falsy one). -/
def Scope.truthy : Scope → Bool
  | .null => false
  | _ => true

/-- `isinstance(v, FieldVisitor)`. -/
def Scope.isFieldV : Scope → Bool
  | .consumer .fld _ => true
  | .emptyFieldV => true
  | _ => false

/-- `isinstance(v, MethodVisitor)`. -/
def Scope.isMethodV : Scope → Bool
  | .consumer .mth _ => true
  | .emptyMethodV => true
  | _ => false

/-- `isinstance(v, AnnotationVisitor)`. -/
def Scope.isAnnV : Scope → Bool
  | .consumer .ann _ => true
  | .emptyAnnV => true
  | _ => false

/-- One `visit_*` call (without the receiving scope). -/
inductive EvK
  | clsE (descriptor : String) (flags : Nat)
  | innerClsE (descriptor : String) (flags : Nat)
  | superE (descriptor : String)
  | implementsE (descriptor : String)
  | sourceE (name : String)
  | fieldE (name : String) (flags : Nat) (descriptor : String) (value : Option String)
  | methodE (name : String) (flags : Nat) (params : List String) (ret : String)
  | annE (flags : Nat) (descriptor : String)
  | subannE (name : String) (flags : Nat) (descriptor : String)
  | enumE (name descriptor valName valDescriptor : String)
  | valueE (name value : String)
  | arrayE (name : String) (values : List String)
  | registersE (n : Int)
  | localsE (n : Int)
  | lineE (n : Int)
  | paramE (register name : String)
  | prologueE
  | restartE (register : String)
  | blockE (label : String)
  | catchE (descriptor : String) (values : String × String × String)
  | catchallE (descriptor : String) (values : String × String × String)
  | packedSwitchE (value : String) (blocks : List String)
  | sparseSwitchE (values : List (String × String))
  | arrayDataE (length : String) (values : List String)
  | localE (register name descriptor fullDescriptor : String)
  | invokeE (qualifier : String) (args : List String) (descriptor signature : String)
  | returnE (qualifier : String) (operands : List String)
  | gotoE (label : String)
  | instructionE (mnemonic : String) (operands : List String)
  | endE
  | commentE (text : Option String)
  | eolCommentE (text : String)
deriving DecidableEq, Repr

abbrev Event := Scope × EvK

/-- Reader configuration (`validate`, `comments`, `snippet`, `errors`). -/
structure Cfg where
  validate : Bool
  comments : Bool
  snippet : Bool
  errors : String
deriving DecidableEq, Repr

def cfgDefault : Cfg := { validate := false, comments := true, snippet := false, errors := "strict" }

def cfgIgnore : Cfg := { cfgDefault with errors := "ignore" }

/-- Engine state: the visitor stack (head = top = Python `stack[-1]`; the
Python list grows at the end, so Python index 0 is the *last* element here),
the shared current line, the remaining source lines (each as `readline`
returns it, trailing newline included; an empty string and an exhausted list
both mean end of stream), the recorded consumer trace, the fresh-scope
counter, and the configuration. -/
structure RState where
  stack : List Scope
  line : LineSt
  src : List String
  trace : List Event
  counter : Nat
  cfg : Cfg
deriving Repr

abbrev SmaliM (α : Type) := EStateM PErr RState α

def mthrow {α : Type} (e : PErr) : SmaliM α := fun s => EStateM.Result.error e s

def getS : SmaliM RState := fun s => EStateM.Result.ok s s

def modifyS (f : RState → RState) : SmaliM Unit := fun s => EStateM.Result.ok () (f s)

/-- `try/except`: the handler resumes from the state at raise time (CPython
keeps mutations made before the raise). -/
def mtry {α : Type} (x : SmaliM α) (h : PErr → SmaliM α) : SmaliM α := fun s =>
  match x s with
  | .ok a s' => EStateM.Result.ok a s'
  | .error e s' => h e s'

/-- `except StopIteration` (other exceptions propagate). -/
def catchStop (x : SmaliM Unit) (h : SmaliM Unit) : SmaliM Unit :=
  mtry x (fun e => if e = .stopIteration then h else mthrow e)

/-- `self._visitor` (`stack[-1]`; `IndexError` on an empty stack). -/
def getVisitorM : SmaliM Scope := do
  let st ← getS
  match st.stack with
  | [] => mthrow .indexError
  | v :: _ => pure v

def pushStackM (v : Scope) : SmaliM Unit :=
  modifyS (fun s => { s with stack := v :: s.stack })

def popStackM : SmaliM Scope := do
  let st ← getS
  match st.stack with
  | [] => mthrow .indexError
  | v :: rest => do
      modifyS (fun s => { s with stack := rest })
      pure v

/-- Deliver one `visit_*` call to a stack entry (see the visitor model above). -/
def emitTo (v : Scope) (e : EvK) : SmaliM Unit :=
  match v with
  | .consumer k i => modifyS (fun s => { s with trace := s.trace ++ [(Scope.consumer k i, e)] })
  | .null => mthrow (.attributeError ("NoneType"))
  | _ => pure ()

/-- Deliver a scope-opening `visit_*` call; a consumer returns a fresh scope,
the inert members return `None`. -/
def callScoped (v : Scope) (k : ScopeKind) (e : EvK) : SmaliM (Option Scope) :=
  match v with
  | .consumer _ _ => do
      emitTo v e
      let st ← getS
      modifyS (fun s => { s with counter := s.counter + 1 })
      pure (some (Scope.consumer k st.counter))
  | .null => mthrow (.attributeError ("NoneType"))
  | _ => pure none

/-- `Line.peek()` (no default — `StopIteration` when exhausted). -/
def linePeekM : SmaliM String := do
  let st ← getS
  match st.line.toks with
  | [] => mthrow .stopIteration
  | t :: _ => pure t

/-- `next(self.line)`. -/
def lineNextM : SmaliM String := do
  let st ← getS
  match st.line.toks with
  | [] => mthrow .stopIteration
  | t :: ts => do
      modifyS (fun s => { s with line := { s.line with toks := ts } })
      pure t

/-- `Line.last()`: last whitespace-split token of `cleaned`, independent of the
cursor. -/
def lineLastM : SmaliM String := do
  let st ← getS
  pure (String.mk ((splitOnChar ' ' st.line.cleaned.data).getLastD []))

def lineResetM (raw : String) : SmaliM Unit :=
  modifyS (fun s => { s with line := lineReset s.line raw })

/-- `_publish_comment`. -/
def publishComment : SmaliM Unit := do
  let st ← getS
  match st.line.eolComment with
  | none => pure ()
  | some c => do
      let v ← getVisitorM
      if v.truthy then emitTo v (.eolCommentE c) else pure ()

/-- `_next_line`: read until the next code statement; blank lines are skipped,
comment-only lines are forwarded (when `comments` is on) and skipped,
end of stream raises `EOFError`. -/
def nlGo : List String → SmaliM Unit
  | [] => mthrow .eofError
  | raw :: rest => do
      modifyS (fun s => { s with src := rest })
      if raw.length = 0 then mthrow .eofError
      else do
        lineResetM raw
        if strStartsWith (pyStripWs raw) ("#") then do
          let st ← getS
          let v ← getVisitorM
          (if v.truthy ∧ st.cfg.comments then
            match st.line.eolComment with
            | some c => emitTo v (.commentE (some c))
            | none => emitTo v (.commentE none)
          else pure ())
          nlGo rest
        else pure ()

def nextLineM : SmaliM Unit := do
  let st ← getS
  nlGo st.src

/-- `_throw_eol`: re-raise as a syntax failure only under the strict policy. -/
def throwEolM : SmaliM Unit := do
  let st ← getS
  if st.cfg.errors = ("strict") then mthrow (.syntaxError ("Unexpected EOL (end of line)"))
  else pure ()

/-- `_validate_token`. -/
def validateToken (token expected : String) : SmaliM Unit := do
  let st ← getS
  if ¬ st.cfg.validate then pure ()
  else
    match token.data with
    | [] => mthrow .indexError
    | c :: _ =>
        if c ≠ '.' then mthrow (.syntaxError ("Expected dot before token"))
        else if pySliceFrom token 1 ≠ expected then mthrow (.syntaxError ("Unexpected token"))
        else pure ()

/-- `_validate_descriptor`. -/
def validateDescriptor (name : String) : SmaliM Unit := do
  let st ← getS
  if ¬ st.cfg.validate then pure ()
  else if matchTypeRe name then pure ()
  else mthrow (.syntaxError ("Expected type descriptor"))

/-- `_read_access_flags` over the remaining tokens: `peek`, stop at the first
non-modifier; an exhausted line raises `StopIteration` out of the loop. -/
def readFlagsGo : List String → Except PErr (List String × List String)
  | [] => .error .stopIteration
  | t :: ts =>
      if accessFind t then (readFlagsGo ts).map (fun p => (t :: p.1, p.2))
      else .ok ([], t :: ts)

def readFlagsM : SmaliM (List String) := do
  let st ← getS
  match readFlagsGo st.line.toks with
  | .error e => mthrow e
  | .ok p => do
      modifyS (fun s => { s with line := { s.line with toks := p.2 } })
      pure p.1

/-- `_collect_values`: each remaining token is right-stripped and, unless it is
quoted on either side, split at commas; `value[0]` on an empty token raises
`IndexError`. -/
def collectGo (strip : Option (List Char)) : List String → Except PErr (List String)
  | [] => .ok []
  | t :: ts =>
      let value := match strip with
        | some cs => pyRstripChars cs t
        | none => pyRstripWs t
      match value.data with
      | [] => .error .indexError
      | c0 :: _ =>
          let clast := value.data.getLastD ' '
          let parts :=
            if c0 ≠ '"' ∧ clast ≠ '"' ∧ value.data.contains ',' then
              (splitOnChar ',' value.data).map String.mk
            else [value]
          (collectGo strip ts).map (fun r => parts ++ r)

def collectValuesM (strip : Option (List Char)) : SmaliM (List String) := do
  let st ← getS
  match collectGo strip st.line.toks with
  | .error e => mthrow e
  | .ok vs => do
      modifyS (fun s => { s with line := { s.line with toks := [] } })
      pure vs

/-- The `while self.line.has_next(): value = next(self.line)` tail of
`_handle_field`: consume the rest of the line, keep the last token. -/
def fieldValueM : SmaliM (Option String) := do
  let st ← getS
  if st.line.toks.isEmpty then pure none
  else do
    modifyS (fun s => { s with line := { s.line with toks := [] } })
    pure (some (st.line.toks.getLastD ("")))

def liftTypeErr {α : Type} : Except String α → SmaliM α
  | .ok a => pure a
  | .error m => mthrow (.typeError m)

/-! ### Statement handlers (`_handle_*` in `reader.py`, one def per handler,
translated line by line) -/

/-- `_handle_end`: pop; `visit_end` unless the popped entry is falsy or one of
the three inert members. -/
def handleEnd : SmaliM Unit := do
  let visitor ← popStackM
  match visitor with
  | .consumer k i => emitTo (.consumer k i) .endE
  | _ => pure ()

/-- `_handle_super` (note: the super-class descriptor check is *not* gated on
`validate` in the source). -/
def handleSuper : SmaliM Unit :=
  catchStop (do
    let token ← lineNextM
    validateToken token ("super")
    let superClass ← linePeekM
    if ¬ matchTypeRe superClass then
      mthrow (.syntaxError ("Expected super-class type descriptor"))
    else do
      let v ← getVisitorM
      emitTo v (.superE superClass)
      publishComment) throwEolM

/-- `_handle_source`. -/
def handleSource : SmaliM Unit :=
  catchStop (do
    let token ← lineNextM
    validateToken token ("source")
    let src ← linePeekM
    let src := delCh '"' src
    let v ← getVisitorM
    emitTo v (.sourceE src)
    publishComment) throwEolM

/-- `_handle_field`: flags, `name:descriptor`, optional trailing `= value`
(the loop keeps the last token), visit, publish, push (inert member when the
consumer declined). -/
def handleField : SmaliM Unit :=
  catchStop (do
    let token ← lineNextM
    validateToken token ("field")
    let flags ← readFlagsM
    let accessFlags := getFlags flags
    let nd ← lineNextM
    match splitOnChar ':' nd.data with
    | [nm, ds] => do
        let descriptor : String := String.mk ds
        validateDescriptor descriptor
        let name := pyLstripChars ['<'] (pyRstripChars ['>'] (String.mk nm))
        let value ← fieldValueM
        let v ← getVisitorM
        let f ← callScoped v .fld (.fieldE name accessFlags descriptor value)
        publishComment
        pushStackM (match f with | some sc => sc | none => Scope.emptyFieldV)
    | _ => mthrow (.valueError ("unpack"))) throwEolM

/-- `_handle_method`: flags, then the signature is decomposed by the `Type`
class (whose `TypeError`s propagate, uncaught); the method scope is pushed
before the comment is published. -/
def handleMethod : SmaliM Unit :=
  catchStop (do
    let token ← lineNextM
    validateToken token ("method")
    let flags ← readFlagsM
    let accessFlags := getFlags flags
    let sig ← linePeekM
    let name ← liftTypeErr (STy.getMethodName sig)
    let params ← liftTypeErr (STy.getMethodParams sig)
    let ret ← liftTypeErr (STy.getMethodReturnType sig)
    let v ← getVisitorM
    let m ← callScoped v .mth (.methodE name accessFlags params ret)
    pushStackM (match m with | some sc => sc | none => Scope.emptyMethodV)
    publishComment) throwEolM

/-- `_handle_annotation`. -/
def handleAnnotationT : SmaliM Unit :=
  catchStop (do
    let token ← lineNextM
    validateToken token ("annotation")
    let flags ← readFlagsM
    let accessFlags := getFlags flags
    let descriptor ← linePeekM
    validateDescriptor descriptor
    let v ← getVisitorM
    let a ← callScoped v .ann (.annE accessFlags descriptor)
    pushStackM (match a with | some sc => sc | none => Scope.emptyAnnV)
    publishComment) throwEolM

/-- `_handle_subannotation` (the name is taken from the cleaned line from the
first space on; the leading token is never consumed, exactly as in the
source). -/
def handleSubann : SmaliM Unit :=
  catchStop (do
    let st ← getS
    let name := pySliceFrom st.line.cleaned (pyFindCh st.line.cleaned ' ')
    let flags ← readFlagsM
    let accessFlags := getFlags flags
    let descriptor ← linePeekM
    validateDescriptor descriptor
    let v ← getVisitorM
    let a ←
      if v.truthy ∧ v ≠ Scope.emptyAnnV then do
        let r ← callScoped v .ann (.subannE name accessFlags descriptor)
        pure (match r with | some sc => sc | none => Scope.null)
      else pure Scope.emptyAnnV
    pushStackM a
    publishComment) throwEolM

/-- `_handle_enum`. -/
def handleEnumT : SmaliM Unit :=
  catchStop (do
    let st ← getS
    let name := pySliceFrom st.line.cleaned (pyFindCh st.line.cleaned ' ')
    let token ← lineNextM
    validateToken token ("enum")
    let pk ← linePeekM
    match splitArrow pk.data with
    | [d, val] => do
        let descriptor : String := String.mk d
        validateDescriptor descriptor
        match splitOnChar ':' val with
        | [vn, vd] => do
            let valDescriptor : String := String.mk vd
            validateDescriptor valDescriptor
            let valName := pyLstripChars ['<'] (pyRstripChars ['>'] (String.mk vn))
            let v ← getVisitorM
            if v.truthy ∧ v ≠ Scope.emptyAnnV then
              emitTo v (.enumE name descriptor valName valDescriptor)
            else pure ()
        | _ => mthrow (.valueError ("unpack"))
    | _ => mthrow (.valueError ("unpack"))) throwEolM

/-- `_handle_param` — note: *no* `StopIteration` guard in the source, so a
truncated `.param` line escapes to the drive loop. -/
def handleParam : SmaliM Unit := do
  let v ← getVisitorM
  if ¬ v.truthy ∨ v = Scope.emptyMethodV then pure ()
  else do
    let _ ← lineNextM
    let register ← lineNextM
    let nm ← linePeekM
    let name := pyStripChars ['"'] nm
    emitTo v (.paramE register name)
    publishComment

/-- `_handle_method_int` (shared by `.line` / `.registers` / `.locals`; also
unguarded against `StopIteration`). -/
def handleMethodInt (tokenName : String) (mk : Int → EvK) : SmaliM Unit := do
  let tk ← lineNextM
  validateToken tk tokenName
  let number ← linePeekM
  let v ← getVisitorM
  if v.truthy then do
    let n ← (match pyInt number with
      | some n => pure n
      | none => mthrow (.valueError ("invalid literal for int")))
    emitTo v (mk n)
    publishComment
  else pure ()

def handleLineT : SmaliM Unit := handleMethodInt ("line") EvK.lineE

def handleRegisters : SmaliM Unit := handleMethodInt ("registers") EvK.registersE

def handleLocals : SmaliM Unit := handleMethodInt ("locals") EvK.localsE

/-- `_handle_block` (a `:label` line). -/
def handleBlock : SmaliM Unit := do
  let b ← linePeekM
  let blockId := pyLstripChars [':'] b
  let v ← getVisitorM
  if v.truthy then do
    emitTo v (.blockE blockId)
    publishComment
  else pure ()

/-- `_handle_catch` / `_handle_catchall`: descriptor, the `{start .. end}`
range (exactly three space-separated parts between the braces), and the
trailing handler label. -/
def handleCatch (isCatchall : Bool) : SmaliM Unit := do
  let v ← getVisitorM
  if ¬ v.truthy ∨ v = Scope.emptyMethodV then pure ()
  else do
    let _ ← lineNextM
    let descriptor ← linePeekM
    validateDescriptor descriptor
    let st ← getS
    let cleaned := st.line.cleaned
    let inner := pyStripWs (pySlice cleaned (pyFindCh cleaned '{' + 1) (pyFindCh cleaned '}'))
    match splitOnChar ' ' inner.data with
    | [a, _, c] => do
        let catchBlock ← lineLastM
        let values := (pyLstripChars [':'] (String.mk a), pyLstripChars [':'] (String.mk c),
          pyLstripChars [':'] catchBlock)
        emitTo v (if isCatchall then .catchallE descriptor values else .catchE descriptor values)
        publishComment
    | _ => mthrow (.valueError ("unpack"))

/-- Modelled from the spec: `opcode.py` (defining `RETURN` and `GOTO`) is not
under `src/`; §4.4 dispatches on a mnemonic starting with `return` and on
the exact mnemonic `goto`. -/
def RETURN : String := "return"

def GOTO : String := "goto"

/-- `_handle_instruction`: invoke / return / goto special forms, generic
instruction otherwise. -/
def handleInstruction : SmaliM Unit := do
  let v ← getVisitorM
  if ¬ v.truthy ∨ v = Scope.emptyMethodV then pure ()
  else do
    let ins ← lineNextM
    let subIns := if ins.data.contains '-' then pySliceFrom ins (pyFindCh ins '-' + 1) else ""
    if strStartsWith ins ("invoke") then do
      let st ← getS
      let cleaned := st.line.cleaned
      let args := (splitOnChar ','
        (pySlice cleaned (pyFindCh cleaned '{' + 1) (pyFindCh cleaned '}')).data).map
        (fun x => pyStripWs (String.mk x))
      let methodSig ← lineLastM
      match splitArrow methodSig.data with
      | [d, sg] => do
          let descriptor : String := String.mk d
          validateDescriptor descriptor
          emitTo v (.invokeE subIns args descriptor (String.mk sg))
          publishComment
      | _ => mthrow (.valueError ("unpack"))
    else if strStartsWith ins RETURN then do
      let vs ← collectValuesM (some [','])
      emitTo v (.returnE subIns vs)
      publishComment
    else if ins = GOTO then do
      let b ← linePeekM
      emitTo v (.gotoE (pyLstripChars [':'] b))
      publishComment
    else do
      let vs ← collectValuesM (some [','])
      (if v.truthy ∧ v ≠ Scope.emptyMethodV then emitTo v (.instructionE ins vs) else pure ())
      publishComment

/-- The collection loop of `_handle_packed_switch`: one token per iteration,
`:label` lines are collected, a line whose token contains `end` breaks, and
(unlike the two handlers below) the loop advances to the next line. -/
def packedGo (fuel : Nat) (blocks : List String) : SmaliM (List String) :=
  match fuel with
  | 0 => mthrow .outOfFuel
  | n + 1 => do
      let nextValue ← lineNextM
      publishComment
      match nextValue.data with
      | [] => mthrow .indexError
      | c :: _ =>
          if c = ':' then do
            nextLineM
            packedGo n (blocks ++ [pyLstripChars [':'] nextValue])
          else if listInfix ("end").data nextValue.data then pure blocks
          else do
            nextLineM
            packedGo n blocks

/-- `_handle_packed_switch`. -/
def handlePacked (bf : Nat) : SmaliM Unit := do
  let _ ← lineNextM
  let value ← linePeekM
  publishComment
  nextLineM
  let blocks ← packedGo bf []
  let v ← getVisitorM
  if v.truthy ∧ v ≠ Scope.emptyMethodV then emitTo v (.packedSwitchE value blocks)
  else pure ()

/-- Python `dict` insert-or-overwrite, insertion order preserved. -/
def dictSet : List (String × String) → String → String → List (String × String)
  | [], k, v => [(k, v)]
  | (k0, v0) :: rest, k, v =>
      if k0 = k then (k0, v) :: rest else (k0, v0) :: dictSet rest k v

/-- The collection loop of `_handle_sparse_switch`, exactly as in the source:
`peek` the key (never advancing the cursor), break on `.end`, otherwise store
`key -> last-token` — and *never* fetch another line. -/
def sparseGo (fuel : Nat) (values : List (String × String)) : SmaliM (List (String × String)) :=
  match fuel with
  | 0 => mthrow .outOfFuel
  | n + 1 => do
      let key ← linePeekM
      publishComment
      match key.data with
      | [] => mthrow .indexError
      | c :: rest =>
          if c = '.' ∧ (String.mk rest) = ("end") then pure values
          else do
            let lst ← lineLastM
            sparseGo n (dictSet values key (pyLstripChars [':'] lst))

/-- The emit tail of `_handle_sparse_switch` (after the loop). -/
def afterSparse (values : List (String × String)) : SmaliM Unit := do
  let v ← getVisitorM
  if v.truthy ∧ v ≠ Scope.emptyMethodV then do
    emitTo v (.sparseSwitchE values)
    publishComment
  else pure ()

/-- `_handle_sparse_switch`. -/
def handleSparse (bf : Nat) : SmaliM Unit := do
  let _ ← lineNextM
  publishComment
  nextLineM
  let values ← sparseGo bf []
  afterSparse values

/-- The collection loop of `_handle_array_data`, exactly as in the source:
`peek` the element (never advancing), break on `.end`, otherwise append —
and *never* fetch another line. -/
def arrayGo (fuel : Nat) (values : List String) : SmaliM (List String) :=
  match fuel with
  | 0 => mthrow .outOfFuel
  | n + 1 => do
      let value ← linePeekM
      publishComment
      match value.data with
      | [] => mthrow .indexError
      | c :: rest =>
          if c = '.' ∧ (String.mk rest) = ("end") then pure values
          else arrayGo n (values ++ [value])

/-- The emit tail of `_handle_array_data`. -/
def afterArray (length : String) (values : List String) : SmaliM Unit := do
  let v ← getVisitorM
  if v.truthy ∧ v ≠ Scope.emptyMethodV then emitTo v (.arrayDataE length values)
  else pure ()

/-- `_handle_array_data`. -/
def handleArrayData (bf : Nat) : SmaliM Unit := do
  let _ ← lineNextM
  let length ← linePeekM
  publishComment
  nextLineM
  let values ← arrayGo bf []
  afterArray length values

/-- `_handle_local`: three collected values (`IndexError` if fewer and
validation is off, `SyntaxError` if validation is on). -/
def handleLocalT : SmaliM Unit := do
  let v ← getVisitorM
  if ¬ v.truthy ∨ v = Scope.emptyMethodV then pure ()
  else do
    let _ ← lineNextM
    let values ← collectValuesM none
    let st ← getS
    if values.length ≠ 3 ∧ st.cfg.validate then
      mthrow (.syntaxError ("Expected 3 values in local statement"))
    else
      match values with
      | v0 :: v1 :: v2 :: _ =>
          (match splitOnChar ':' v1.data with
           | [nm, ds] => do
               let descriptor : String := String.mk ds
               validateDescriptor descriptor
               validateDescriptor v2
               emitTo v (.localE v0 (pyStripChars ['"'] (String.mk nm)) descriptor v2)
               publishComment
           | _ => mthrow (.valueError ("unpack")))
      | _ => mthrow .indexError

/-- `_handle_prologue`. -/
def handlePrologue : SmaliM Unit := do
  let v ← getVisitorM
  if v.truthy ∧ v ≠ Scope.emptyMethodV then do
    emitTo v .prologueE
    publishComment
  else pure ()

/-- `_handle_restart`. -/
def handleRestart : SmaliM Unit := do
  let v ← getVisitorM
  if ¬ v.truthy ∨ v = Scope.emptyMethodV then pure ()
  else do
    let register ← lineLastM
    emitTo v (.restartE register)
    publishComment

/-- `_class_def`: optionally fetch the next line (EOF: silently give up unless
validating), then parse `.class [flags] descriptor` and deliver
`visit_class` / `visit_inner_class`; returns the scope the consumer answered
with (`none` is Python `None`). -/
def classDef (fetchLine : Bool) (innerClass : Bool) : SmaliM (Option Scope) := do
  let go ←
    if fetchLine then
      mtry (do nextLineM; pure true)
        (fun e =>
          match e with
          | .eofError => do
              let st ← getS
              if ¬ st.cfg.validate then pure false
              else mthrow (.syntaxError ("Expected a class defintion - got EOF"))
          | e => mthrow e)
    else pure true
  if ¬ go then pure none
  else
    mtry (do
      let token ← lineNextM
      validateToken token ("class")
      let flags ← readFlagsM
      let name ← linePeekM
      validateDescriptor name
      let accessFlags := getFlags flags
      let v ← getVisitorM
      let c ←
        if ¬ innerClass then callScoped v .cls (.clsE name accessFlags)
        else callScoped v .cls (.innerClsE name accessFlags)
      publishComment
      pure c)
      (fun e => if e = .stopIteration then do throwEolM; pure none else mthrow e)

/-- `_handle_token`: strip the leading dot, implicitly close an open field
scope (pop, no `visit_end`) unless the statement is `.annotation`/`.end`,
then dispatch.  Unknown statements raise `AttributeError` (the dynamic
`getattr` lookup). -/
def handleToken (bf : Nat) : SmaliM Unit := do
  let st0 ← linePeekM
  let statement := pySliceFrom st0 1
  let visitor ← getVisitorM
  (if visitor.isFieldV ∧ statement ≠ ("annotation") ∧ statement ≠ ("end") then do
    let _ ← popStackM
    pure ()
  else pure ())
  if statement = ("implements") then do
    let _ ← lineNextM
    let v ← getVisitorM
    if v.truthy then do
      let name ← linePeekM
      validateDescriptor name
      emitTo v (.implementsE name)
      publishComment
    else pure ()
  else if statement = ("class") then do
    let c ← classDef false true
    pushStackM (match c with | some sc => sc | none => Scope.null)
  else
    match statement with
    | "super" => handleSuper
    | "source" => handleSource
    | "field" => handleField
    | "end" => handleEnd
    | "method" => handleMethod
    | "annotation" => handleAnnotationT
    | "subannotation" => handleSubann
    | "enum" => handleEnumT
    | "param" => handleParam
    | "line" => handleLineT
    | "registers" => handleRegisters
    | "locals" => handleLocals
    | "catch" => handleCatch false
    | "catchall" => handleCatch true
    | "packed-switch" => handlePacked bf
    | "sparse-switch" => handleSparse bf
    | "array-data" => handleArrayData bf
    | "local" => handleLocalT
    | "prologue" => handlePrologue
    | "restart" => handleRestart
    | other => mthrow (.attributeError other)

/-- The multi-line collection loop of `_handle_value` (annotation array
spanning several lines, until a line starting or ending with a brace). -/
def valueArrGo (fuel : Nat) (acc : List String) : SmaliM (List String) :=
  match fuel with
  | 0 => mthrow .outOfFuel
  | n + 1 => do
      let st ← getS
      let cl := st.line.cleaned.data
      match cl.getLast?, cl.head? with
      | some lastc, some headc =>
          if lastc ≠ '}' ∧ headc ≠ '}' then do
            let v ← linePeekM
            let v := pyRstripChars [','] v
            publishComment
            nextLineM
            valueArrGo n (acc ++ [v])
          else pure acc
      | _, _ => mthrow .indexError

/-- `_handle_value` (`name = value` inside an annotation scope). -/
def handleValue (bf : Nat) : SmaliM Unit := do
  let valName ← lineNextM
  let _ ← lineNextM
  let statement ← linePeekM
  match statement.data with
  | [] => mthrow .indexError
  | c :: _ =>
      if c = '.' then handleToken bf
      else do
        let st ← getS
        let cleaned := st.line.cleaned
        if cleaned.data.contains '{' then do
          let aValues ←
            if cleaned.data.contains '}' then
              pure ((splitOnChar ','
                (pySlice cleaned (pyFindCh cleaned '{' + 1) (pyFindCh cleaned '}')).data).map
                (fun x => pyStripWs (String.mk x)))
            else do
              publishComment
              nextLineM
              valueArrGo bf []
          let v ← getVisitorM
          if v.truthy ∧ v ≠ Scope.emptyAnnV then emitTo v (.arrayE valName aValues)
          else pure ()
        else do
          let v ← getVisitorM
          if v.truthy ∧ v ≠ Scope.emptyAnnV then do
            let pk ← linePeekM
            emitTo v (.valueE valName pk)
          else pure ()

/-- The `while True` drive loop of `_do_visit`, one fuel unit per line. -/
def driveLoop (bf : Nat) : Nat → SmaliM Unit
  | 0 => mthrow .outOfFuel
  | n + 1 => do
      nextLineM
      let st ← getS
      if st.line.cleaned.length = 0 then driveLoop bf n
      else do
        let statement ← linePeekM
        match statement.data with
        | [] => mthrow .indexError
        | c :: _ => do
            (if c = '.' then handleToken bf
             else if c = ':' then handleBlock
             else do
               let v ← getVisitorM
               if v.isAnnV then handleValue bf
               else if v.isMethodV then handleInstruction
               else pure ())
            driveLoop bf n

/-- `_do_visit`: run the drive loop; `EOFError` ends the parse by delivering a
final `visit_end` to the top of the stack (which is *not* popped);
`StopIteration` escaping a handler becomes an unconditional `SyntaxError`. -/
def doVisit (bf df : Nat) : SmaliM Unit :=
  mtry (driveLoop bf df)
    (fun e =>
      match e with
      | .eofError => do
          let v ← getVisitorM
          emitTo v .endE
      | .stopIteration => mthrow (.syntaxError ("Unexpected EOL (end of line)"))
      | e => mthrow e)

/-- `SmaliReader.visit`: null checks, errors-policy check, push the caller's
visitor, parse the mandatory class definition unless in snippet mode, then
drive.  (The stream-wrapping/`readable()` type checks are outside the model:
the source is already a line list.) -/
def visitM (df bf : Nat) (root : Scope) : SmaliM Unit := do
  let st0 ← getS
  if ¬ root.truthy ∨ st0.src.isEmpty then mthrow (.valueError ("Invalid source or visitor"))
  else do
    if st0.cfg.errors ≠ ("ignore") ∧ st0.cfg.errors ≠ ("strict") then
      mthrow (.valueError ("Invalid error handling type"))
    else do
      pushStackM root
      if ¬ st0.cfg.snippet then do
        let _ ← classDef true false
        doVisit bf df
      else doVisit bf df

def initState (cfg : Cfg) (prev : List Scope) (counter0 : Nat) (lines : List String) : RState :=
  { stack := prev, line := initLine, src := lines, trace := [], counter := counter0, cfg := cfg }

/-- One `visit()` call: `prev` is the (class-attribute, hence persistent)
stack contents left over from earlier calls, `root` the caller's visitor,
`counter0` seeds fresh scope identities. -/
def runSmali (df bf : Nat) (cfg : Cfg) (root : Scope) (counter0 : Nat) (prev : List Scope)
    (lines : List String) : EStateM.Result PErr RState Unit :=
  visitM df bf root (initState cfg prev counter0 lines)

/-- The recorded trace of a completed run. -/
def resTrace : EStateM.Result PErr RState Unit → Option (List Event)
  | .ok _ s => some s.trace
  | .error _ _ => none

/-- The final stack of a completed run. -/
def resStack : EStateM.Result PErr RState Unit → Option (List Scope)
  | .ok _ s => some s.stack
  | .error _ _ => none

/-- The error of a failed run. -/
def resErr : EStateM.Result PErr RState Unit → Option PErr
  | .error e _ => some e
  | .ok _ _ => none

/-- Source text as the list of `readline` results (one trailing newline each). -/
def mkLines (ls : List String) : List String := ls.map (fun s => s ++ "\n")

/-! ## Inputs and claim theorems -/

/-- The caller's visitor for the first `visit()` call. -/
def root0 : Scope := Scope.consumer .cls 0

/-- The minimal unit of C1 (and C10). -/
def c1Src : List String := mkLines
  [(".class public Lcom/Example;"), (".super Ljava/lang/Object;"),
   (".method public constructor <init>()V"), (".registers 1"), (".end method")]

/-- C1: parsing the minimal unit delivers to the consumer exactly
visit_class, visit_super, visit_method, visit_registers, visit_end (method
scope), visit_end (class scope), in that order, with no other visitor calls
in between — the recorded trace is exactly that call sequence. -/
theorem c1_minimal_unit_events :
    resTrace (runSmali 20 20 cfgDefault root0 1 [] c1Src) =
      some [(root0, .clsE ("Lcom/Example;") 1),
            (root0, .superE ("Ljava/lang/Object;")),
            (root0, .methodE ("<init>") 131073 [] ("V")),
            (Scope.consumer .mth 2, .registersE 1),
            (Scope.consumer .mth 2, .endE),
            (root0, .endE)] := by rfl

/-- The C3 input: a field with an inline value, no `.end field`, then a method. -/
def c3Src : List String := mkLines
  [(".class public La;"), (".field private final foo:I = 0x5"),
   (".method public m()V"), (".end method")]

def isFieldEnd : Event → Bool
  | (Scope.consumer .fld _, .endE) => true
  | _ => false

def isMethodCall : Event → Bool
  | (_, .methodE _ _ _ _) => true
  | _ => false

/-- C3 counterexample: on the C3 input the method scope is opened
(one visit_method call) but *no* field-scope visit_end is emitted anywhere in
the parse — the field scope is not closed by a visit_end before visit_method,
contrary to the claim. -/
theorem c3_counterexample :
    (resTrace (runSmali 20 20 cfgDefault root0 1 [] c3Src)).map
        (fun t => ((t.filter isFieldEnd).length, (t.filter isMethodCall).length)) =
      some (0, 1) := by rfl

/-- C3 (amended): a `.field` without `.end field` followed by `.method` closes
the field scope by silently popping it — no visit_end is delivered to the
field scope — before visit_method is called; stack discipline is preserved
(the run ends with only the root frame). -/
theorem c3_field_popped_silently :
    resTrace (runSmali 20 20 cfgDefault root0 1 [] c3Src) =
      some [(root0, .clsE ("La;") 1),
            (root0, .fieldE ("foo") 18 ("I") (some ("0x5"))),
            (root0, .methodE ("m") 1 [] ("V")),
            (Scope.consumer .mth 3, .endE),
            (root0, .endE)] ∧
    resStack (runSmali 20 20 cfgDefault root0 1 [] c3Src) = some [root0] :=
  ⟨by rfl, by rfl⟩

/-- C5 truncated-statement inputs. -/
def c5SuperSrc : List String := mkLines
  [(".class public La;"), (".super"), (".method public m()V"), (".end method")]

def c5ParamSrc : List String := mkLines
  [(".class public La;"), (".method public m()V"), (".param p0")]

/-- C5 counterexample: with the `"ignore"` policy a truncated `.param`
statement is *not* swallowed — the parse fails with the EOL syntax error, so
the policy does not cover every statement handler. -/
theorem c5_counterexample :
    resErr (runSmali 20 20 cfgIgnore root0 1 [] c5ParamSrc) =
      some (.syntaxError ("Unexpected EOL (end of line)")) := by rfl

/-- C5 (amended): statement handlers that wrap their token consumption in the
end-of-line guard (such as `.super`) abandon the statement and continue under
`"ignore"` and raise a syntax failure under `"strict"`; handlers without the
guard (such as `.param`) let the condition escape to the drive loop, which
raises the syntax failure under both policies. -/
theorem c5_eol_policy_amended :
    resTrace (runSmali 20 20 cfgIgnore root0 1 [] c5SuperSrc) =
      some [(root0, .clsE ("La;") 1),
            (root0, .methodE ("m") 1 [] ("V")),
            (Scope.consumer .mth 2, .endE),
            (root0, .endE)] ∧
    resErr (runSmali 20 20 cfgDefault root0 1 [] c5SuperSrc) =
      some (.syntaxError ("Unexpected EOL (end of line)")) ∧
    resErr (runSmali 20 20 cfgIgnore root0 1 [] c5ParamSrc) =
      some (.syntaxError ("Unexpected EOL (end of line)")) ∧
    resErr (runSmali 20 20 cfgDefault root0 1 [] c5ParamSrc) =
      some (.syntaxError ("Unexpected EOL (end of line)")) :=
  ⟨by rfl, by rfl, by rfl, by rfl⟩

/-- C10: the first `visit()` leaves its root frame on the stack (the final
visit_end at end-of-stream is delivered to the top frame without popping it),
and a subsequent `visit()` — here with a fresh root visitor, sharing the
class-attribute stack — runs on a stack that still holds the leftover frame
underneath its own. -/
theorem c10_persistent_stack :
    resStack (runSmali 20 20 cfgDefault root0 1 [] c1Src) = some [root0] ∧
    (resTrace (runSmali 20 20 cfgDefault root0 1 [] c1Src)).map (fun t => t.getLast?) =
      some (some (root0, .endE)) ∧
    resStack (runSmali 20 20 cfgDefault (Scope.consumer .cls 50) 51 [root0] c1Src) =
      some [Scope.consumer .cls 50, root0] :=
  ⟨by rfl, by rfl, by rfl⟩

/-! ### C2: the sparse-switch / array-data collection loops never fetch the
next line (`_handle_sparse_switch` and `_handle_array_data` contain no
`_next_line()` call inside their `while True` loops, unlike
`_handle_packed_switch`), so any non-empty block makes them loop forever. -/

/-- C2 inputs: one-entry blocks (non-terminating in the source) and empty
blocks (the only ones the handlers finish). -/
def c2SparseSrc : List String := mkLines
  [(".class public La;"), (".method public m()V"), (".sparse-switch"),
   ("0x1 -> :a"), (".end sparse-switch"), (".end method")]

def c2ArraySrc : List String := mkLines
  [(".class public La;"), (".method public m()V"), (".array-data 4"),
   ("0x1"), (".end array-data"), (".end method")]

def c2SparseEmptySrc : List String := mkLines
  [(".class public La;"), (".method public m()V"), (".sparse-switch"),
   (".end sparse-switch"), (".end method")]

def c2ArrayEmptySrc : List String := mkLines
  [(".class public La;"), (".method public m()V"), (".sparse-switch"),
   (".end sparse-switch"), (".end method")]

def c2Trace : List Event :=
  [(root0, .clsE ("La;") 1), (root0, .methodE ("m") 1 [] ("V"))]

/-- The engine state on entering the sparse-switch collection loop of the
`c2SparseSrc` run: the key line is current, the loop will never move past it. -/
def c2SparseEntry : RState :=
  { stack := [Scope.consumer .mth 2, root0],
    line := lineReset initLine ("0x1 -> :a\n"),
    src := mkLines [(".end sparse-switch"), (".end method")],
    trace := c2Trace, counter := 3, cfg := cfgDefault }

/-- The engine state at dispatch of `_handle_sparse_switch` in that run. -/
def c2SparseDispatch : RState :=
  { c2SparseEntry with
    line := lineReset initLine (".sparse-switch\n"),
    src := ("0x1 -> :a\n") :: c2SparseEntry.src }

/-- The engine state on entering the array-data collection loop of the
`c2ArraySrc` run. -/
def c2ArrayEntry : RState :=
  { stack := [Scope.consumer .mth 2, root0],
    line := lineReset initLine ("0x1\n"),
    src := mkLines [(".end array-data"), (".end method")],
    trace := c2Trace, counter := 3, cfg := cfgDefault }

/-- The engine state at dispatch of `_handle_array_data` in that run. -/
def c2ArrayDispatch : RState :=
  { c2ArrayEntry with
    line := lineReset initLine (".array-data 4\n"),
    src := ("0x1\n") :: c2ArrayEntry.src }

/-- An `EStateM` bind propagates an error together with the error-time state. -/
theorem bindErrLem {α β : Type} (x : SmaliM α) (f : α → SmaliM β) (s s' : RState) (e : PErr)
    (h : x s = EStateM.Result.error e s') : (x >>= f) s = EStateM.Result.error e s' := by
  show EStateM.bind x f s = EStateM.Result.error e s'
  unfold EStateM.bind
  rw [h]

/-- One sparse-loop iteration from `c2SparseEntry` changes nothing but the
(local) dictionary, so every fuel budget is exhausted with the state intact. -/
theorem sparseGoDiverges (bf : Nat) : ∀ vs,
    sparseGo bf vs c2SparseEntry = EStateM.Result.error PErr.outOfFuel c2SparseEntry := by
  induction bf with
  | zero => intro vs; rfl
  | succ n ih =>
      intro vs
      have h : sparseGo (n + 1) vs c2SparseEntry
          = sparseGo n (dictSet vs ("0x1") ("a")) c2SparseEntry := by rfl
      rw [h]
      exact ih _

/-- Likewise for the array-data loop: the element list grows, the state and
the current line never change. -/
theorem arrayGoDiverges (bf : Nat) : ∀ vs,
    arrayGo bf vs c2ArrayEntry = EStateM.Result.error PErr.outOfFuel c2ArrayEntry := by
  induction bf with
  | zero => intro vs; rfl
  | succ n ih =>
      intro vs
      have h : arrayGo (n + 1) vs c2ArrayEntry
          = arrayGo n (vs ++ [("0x1")]) c2ArrayEntry := by rfl
      rw [h]
      exact ih _

set_option maxRecDepth 8000 in
/-- C2: the claim fails on the code — for a `.sparse-switch` block with one
`key -> label` line and an `.array-data` block with one element line, the
handlers never consume the block (the collection loops re-read the same line
for every fuel budget, and the full runs exhaust any fuel), so no event is
ever emitted; only an *empty* block (terminator immediately after the
directive) is consumed and emits its single event. -/
theorem c2_block_handlers_diverge :
    (∀ bf vs, sparseGo bf vs c2SparseEntry = EStateM.Result.error PErr.outOfFuel c2SparseEntry) ∧
    (∀ bf, handleSparse bf c2SparseDispatch = EStateM.Result.error PErr.outOfFuel c2SparseEntry) ∧
    resErr (runSmali 20 100 cfgDefault root0 1 [] c2SparseSrc) = some PErr.outOfFuel ∧
    (∀ bf vs, arrayGo bf vs c2ArrayEntry = EStateM.Result.error PErr.outOfFuel c2ArrayEntry) ∧
    (∀ bf, handleArrayData bf c2ArrayDispatch = EStateM.Result.error PErr.outOfFuel c2ArrayEntry) ∧
    resErr (runSmali 20 100 cfgDefault root0 1 [] c2ArraySrc) = some PErr.outOfFuel ∧
    resTrace (runSmali 20 100 cfgDefault root0 1 [] c2SparseEmptySrc) =
      some (c2Trace ++ [(Scope.consumer .mth 2, .sparseSwitchE []),
        (Scope.consumer .mth 2, .endE), (root0, .endE)]) := by
  refine ⟨sparseGoDiverges, ?_, by rfl, arrayGoDiverges, ?_, by rfl, by rfl⟩
  · intro bf
    have h0 : handleSparse bf c2SparseDispatch
        = (sparseGo bf [] >>= afterSparse) c2SparseEntry := by rfl
    rw [h0]
    exact bindErrLem _ _ _ _ _ (sparseGoDiverges bf [])
  · intro bf
    have h0 : handleArrayData bf c2ArrayDispatch
        = (arrayGo bf [] >>= afterArray ("4")) c2ArrayEntry := by rfl
    rw [h0]
    exact bindErrLem _ _ _ _ _ (arrayGoDiverges bf [])

/-! ### C4 / C9: the literal classifier at the claimed inputs -/

/-- C4: what `smali_value` actually does on the seven claimed inputs.  The
plain decimal, hex, string, boolean-true and unmatched (`null`) cases behave
as claimed; but `5s` (claimed: short 5) and `3.14` (claimed: double 3.14)
both raise a `ValueError` out of the `int` conversion — the short pattern's
wrapper never strips the `s` suffix, and the int pattern prefix-matches the
leading `3` of `3.14` before the double pattern is ever tried. -/
theorem c4_literal_eval :
    smaliValue ("5") = Except.ok (PyVal.int 5) ∧
    smaliValue ("0x1A") = Except.ok (PyVal.int 26) ∧
    smaliValue ("\"hi\"") = Except.ok (PyVal.str ("hi")) ∧
    smaliValue ("true") = Except.ok (PyVal.bool true) ∧
    smaliValue ("null") = Except.error (SmErr.unclassifiable ("null")) ∧
    smaliValue ("5s") = Except.error (SmErr.convError ("5s")) ∧
    smaliValue ("3.14") = Except.error (SmErr.convError ("3.14")) :=
  ⟨by rfl, by rfl, by rfl, by rfl, by rfl, by rfl, by rfl⟩

/-- C9 counterexample: `"false"` does not raise the unclassifiable-literal
error — the int pattern prefix-matches its leading `fa`, so the boolean
pattern is never consulted and the raised `ValueError` comes from
`int("false")`, a different error than the unclassifiable one the claim
asserts. -/
theorem c9_counterexample :
    smaliValue ("false") = Except.error (SmErr.convError ("false")) ∧
    SmErr.convError ("false") ≠ SmErr.unclassifiable ("false") :=
  ⟨by rfl, by decide⟩

/-- C9 (amended): `smali_value` returns only truthy decoded values — `"0"`
(int 0) and `'""'` (empty string) decode to falsy values and raise the same
unclassifiable-literal error as an unmatched lexeme; `"false"`, however,
never reaches the boolean decoder: the int pattern prefix-matches it and the
raised error is the int-conversion `ValueError` instead. -/
theorem c9_truthiness_amended :
    smaliValue ("0") = Except.error (SmErr.unclassifiable ("0")) ∧
    smaliValue ("\"\"") = Except.error (SmErr.unclassifiable ("\"\"")) ∧
    smaliValue ("false") = Except.error (SmErr.convError ("false")) ∧
    (∀ s v, smaliValue s = Except.ok v → pyTruthy v = true) := by
  refine ⟨by rfl, by rfl, by rfl, ?_⟩
  intro s v h
  unfold smaliValue at h
  split at h
  · exact absurd h (by simp)
  · exact absurd h (by simp)
  · split at h
    · injection h with hv
      rw [← hv]
      assumption
    · exact absurd h (by simp)

/-- C9 witness: the general truthiness conjunct applied at the concrete input
`"5"`. -/
theorem c9_truthiness_amended_witness : pyTruthy (PyVal.int 5) = true :=
  c9_truthiness_amended.2.2.2 ("5") (PyVal.int 5) (by rfl)

/-! ### C6: AccessType containment -/

/-- C6 counterexample: flag-set-in-flag-set containment is not "exact same
variant" — the combined value PUBLIC|FINAL contains the single bit PUBLIC
(`PUBLIC in (PUBLIC|FINAL)` is True in the source) although the two are
different values. -/
theorem c6_counterexample :
    accessContains (acPublic ||| acFinal) (COperand.flagval acPublic) = true ∧
    acPublic ≠ acPublic ||| acFinal :=
  ⟨by decide, by decide⟩

/-- C6 (amended): containment against a plain integer mask is any-overlap
(`self & other != 0`); containment against another flag-set value is the
bit-subset test of `enum.Flag.__contains__` (every bit of the tested value
lies in the receiver), not exact variant equality.  The asymmetry of the
claim's example survives: the int form `(PUBLIC+FINAL) in PUBLIC` is true
while the flag form `(PUBLIC|FINAL) in PUBLIC` is false. -/
theorem c6_containment_amended :
    (∀ self mask : Nat, accessContains self (COperand.intval mask) = (self &&& mask != 0)) ∧
    (∀ self other : Nat, accessContains self (COperand.flagval other) = (other &&& self == other)) ∧
    accessContains acPublic (COperand.intval (acPublic + acFinal)) = true ∧
    accessContains acPublic (COperand.flagval (acPublic ||| acFinal)) = false ∧
    (∀ self other i : Nat, accessContains self (COperand.flagval other) = true →
      other.testBit i = true → self.testBit i = true) := by
  refine ⟨fun _ _ => rfl, fun _ _ => rfl, by decide, by decide, ?_⟩
  intro self other i h hb
  have h0 : (other &&& self == other) = true := h
  have h' : other &&& self = other := by simpa using h0
  have h2 := congrArg (fun n => Nat.testBit n i) h'
  simp only [Nat.testBit_land] at h2
  rw [hb] at h2
  simpa using h2

/-- C6 witness: the bit-subset conjunct applied at `self = 17`, `other = 1`,
`i = 0`. -/
theorem c6_containment_amended_witness : (17 : Nat).testBit 0 = true :=
  c6_containment_amended.2.2.2.2 17 1 0 (by decide) (by decide)

/-! ### C7: descriptor / class-name round-trip -/

/-- C7 counterexample: the round-trip fails for array-prefixed descriptors —
`class_name` of `[Lpkg/Name;` drops the array prefix, and converting back
yields the element descriptor `Lpkg/Name;`, not the original `[Lpkg/Name;`. -/
theorem c7_counterexample :
    STy.descriptor (STy.className ("[Lpkg/Name;")) = ("Lpkg/Name;") ∧
    ("Lpkg/Name;" : String) ≠ ("[Lpkg/Name;") :=
  ⟨by rfl, by decide⟩

/-- C7 (amended): a plain class descriptor `Lpkg/Sub/Name;` converts to the
dotted class name `pkg.Sub.Name` and back to the original descriptor; an
array descriptor `[Lpkg/Name;` converts to the class name `pkg.Name` (array
prefix dropped) whose reverse conversion is the non-array descriptor
`Lpkg/Name;`. -/
theorem c7_roundtrip_amended :
    STy.className ("Lpkg/Sub/Name;") = ("pkg.Sub.Name") ∧
    STy.descriptor ("pkg.Sub.Name") = ("Lpkg/Sub/Name;") ∧
    STy.className ("[Lpkg/Name;") = ("pkg.Name") ∧
    STy.descriptor ("pkg.Name") = ("Lpkg/Name;") :=
  ⟨by rfl, by rfl, by rfl, by rfl⟩

/-! ### C8: method-signature decomposition -/

/-- C8 counterexample: the claim's "run of leading `[` attached as array
prefix to the following parameter" fails for primitive parameters — in
`m([I)V` the scanner emits the primitive `I` alone and drops the pending
`[`, yielding `["I"]` instead of the claimed `["[I"]`. -/
theorem c8_counterexample :
    STy.getMethodParams ("m([I)V") = Except.ok [("I")] ∧
    ([("I")] : List String) ≠ [("[I")] :=
  ⟨by rfl, by decide⟩

/-- C8 (amended): the name is everything before `(` (`<init>`/`<clinit>`
verbatim, other bracketed names stripped of their brackets), the return type
is everything after `)`, and parameters are scanned as claimed for object
types — but a pending `[` run is attached only to the next *object-type*
parameter: a primitive after `[` is emitted without the prefix, which is
left pending and leaks onto the next object parameter (`m([ILa;)V` gives
`["I", "[La;"]`). -/
theorem c8_method_decompose_amended :
    STy.getMethodName ("<init>(I[Ljava/lang/String;)V") = Except.ok ("<init>") ∧
    STy.getMethodParams ("<init>(I[Ljava/lang/String;)V") =
      Except.ok [("I"), ("[Ljava/lang/String;")] ∧
    STy.getMethodReturnType ("<init>(I[Ljava/lang/String;)V") = Except.ok ("V") ∧
    STy.getMethodName ("<custom>()V") = Except.ok ("custom") ∧
    STy.getMethodParams ("m([I)V") = Except.ok [("I")] ∧
    STy.getMethodParams ("m([ILa;)V") = Except.ok [("I"), ("[La;")] :=
  ⟨by rfl, by rfl, by rfl, by rfl, by rfl, by rfl⟩
